import Mathlib

/-!
Verification of the crypto_trader core against its specification.

The development shallowly embeds the two core modules the claims are about:

* `crypto_trader/core/data_engine.py` — `TechnicalIndicators`
  (`calculate_rsi`, `calculate_ema`, `calculate_macd`, `calculate_atr`),
  the kline handlers (`_handle_kline_data`, `_handle_kline_data_single`)
  and `_calculate_and_update_indicators`;
* `crypto_trader/core/smart_trigger.py` — `SmartTrigger.should_trigger_decision`
  and its condition checks.

Python floats are modelled as exact rationals (`ℚ`); Python lists as `List`;
dicts with a fixed shape as structures; fallible external lookups (Redis)
as `Except`-valued inputs.  All definitions are executable.
-/

namespace CryptoTrader

/-- Python slice `l[-n:]` (for `n = 0` Python yields the whole list). -/
def lastN {α : Type} (n : ℕ) (l : List α) : List α :=
  if n = 0 then l else l.drop (l.length - n)

/-- `np.diff`: successive differences of a list. -/
def diffs : List ℚ → List ℚ
  | [] => []
  | [_] => []
  | x :: y :: rest => (y - x) :: diffs (y :: rest)

/-- `np.mean` over rationals (empty list yields `0/0 = 0`). -/
def mean (l : List ℚ) : ℚ := l.sum / (l.length : ℚ)

/-! ### TechnicalIndicators (data_engine.py, lines 24–125) -/

/-- `np.where(deltas > 0, deltas, 0)` in `calculate_rsi`. -/
def rsi_gains (prices : List ℚ) : List ℚ :=
  (diffs prices).map fun d => if 0 < d then d else 0

/-- `np.where(deltas < 0, -deltas, 0)` in `calculate_rsi`. -/
def rsi_losses (prices : List ℚ) : List ℚ :=
  (diffs prices).map fun d => if d < 0 then -d else 0

/-- `avg_gain = np.mean(gains[-period:])`. -/
def rsi_avg_gain (prices : List ℚ) (period : ℕ) : ℚ :=
  mean (lastN period (rsi_gains prices))

/-- `avg_loss = np.mean(losses[-period:])`. -/
def rsi_avg_loss (prices : List ℚ) (period : ℕ) : ℚ :=
  mean (lastN period (rsi_losses prices))

/-- `TechnicalIndicators.calculate_rsi` (data_engine.py lines 27–50).
Returns the neutral sentinel `50.0` when `len(prices) < period + 1`,
`100.0` when the average loss vanishes, and Wilder RSI otherwise. -/
def calculate_rsi (prices : List ℚ) (period : ℕ := 14) : ℚ :=
  if prices.length < period + 1 then 50
  else if rsi_avg_loss prices period = 0 then 100
  else
    let rs := rsi_avg_gain prices period / rsi_avg_loss prices period
    100 - 100 / (1 + rs)

/-- One step of `pandas ewm(span, adjust=False).mean()`:
`y_t = a * x_t + (1 - a) * y_(t-1)` with `a = 2 / (span + 1)`. -/
def emaStep (a prev x : ℚ) : ℚ := a * x + (1 - a) * prev

/-- Tail of the exponentially weighted mean series, given the running value. -/
def emaSeqAux (a : ℚ) (prev : ℚ) : List ℚ → List ℚ
  | [] => []
  | x :: xs => emaStep a prev x :: emaSeqAux a (emaStep a prev x) xs

/-- `pandas Series.ewm(span, adjust=False).mean()` as a series:
seeded by the first value, recursively smoothed. -/
def emaSeq (a : ℚ) : List ℚ → List ℚ
  | [] => []
  | x :: xs => x :: emaSeqAux a x xs

/-- `TechnicalIndicators.calculate_ema` (data_engine.py lines 52–60).
Returns the sentinel `0.0` when `len(prices) < period`, otherwise the last
element of the `ewm(span=period, adjust=False)` mean series. -/
def calculate_ema (prices : List ℚ) (period : ℕ) : ℚ :=
  if prices.length < period then 0
  else (emaSeq (2 / ((period : ℚ) + 1)) prices).getLastD 0

/-- Return record of `calculate_macd`. -/
structure MacdResult where
  macd_line : ℚ
  macd_signal : ℚ
  macd_histogram : ℚ
  deriving Repr, DecidableEq

/-- `TechnicalIndicators.calculate_macd` (data_engine.py lines 62–83).
All three outputs are the sentinel `0.0` when `len(prices) < slow + signal`;
otherwise the line is `EMA(fast) − EMA(slow)` elementwise, the signal is an
`EMA(signal)` of the line, the histogram their difference, each reported at
the final index (`iloc[-1]`). -/
def calculate_macd (prices : List ℚ) (fast : ℕ := 12) (slow : ℕ := 26)
    (signal : ℕ := 9) : MacdResult :=
  if prices.length < slow + signal then ⟨0, 0, 0⟩
  else
    let ema_fast := emaSeq (2 / ((fast : ℚ) + 1)) prices
    let ema_slow := emaSeq (2 / ((slow : ℚ) + 1)) prices
    let macd_line := List.zipWith (· - ·) ema_fast ema_slow
    let macd_signal := emaSeq (2 / ((signal : ℚ) + 1)) macd_line
    let macd_histogram := List.zipWith (· - ·) macd_line macd_signal
    ⟨macd_line.getLastD 0, macd_signal.getLastD 0, macd_histogram.getLastD 0⟩

/-- Inner kline dict `msg['k']` of a Binance kline stream message. -/
structure Kline where
  t : ℕ
  T : ℕ
  i : String
  o : ℚ
  c : ℚ
  h : ℚ
  l : ℚ
  v : ℚ
  x : Bool
  deriving Repr, DecidableEq

/-- A full kline stream message `{'s': symbol, 'k': {...}}` as cached by
`DataEngine.klines_cache` on the single-stream path. -/
structure KlineMsg where
  s : String
  k : Kline
  deriving Repr, DecidableEq

/-- True ranges of `calculate_atr`: for each consecutive pair of cached
messages, `max(high − low, |high − prevClose|, |low − prevClose|)` of the
inner `['k']` dicts. -/
def trueRanges : List KlineMsg → List ℚ
  | [] => []
  | [_] => []
  | a :: b :: rest =>
    max (b.k.h - b.k.l) (max |b.k.h - a.k.c| |b.k.l - a.k.c|) ::
      trueRanges (b :: rest)

/-- `TechnicalIndicators.calculate_atr` (data_engine.py lines 99–125).
Returns the sentinel `0.0` when `len(klines) < period + 1`, otherwise the
mean of the last `period` true ranges. -/
def calculate_atr (klines : List KlineMsg) (period : ℕ := 14) : ℚ :=
  if klines.length < period + 1 then 0
  else mean (lastN period (trueRanges klines))

/-! ### DataEngine kline handling (data_engine.py lines 397–520, 661–722) -/

/-- The buffer update shared by both kline handlers:
`cache.append(item)` followed by `if len(cache) > 100: cache = cache[-100:]`. -/
def appendCapped {α : Type} (cache : List α) (item : α) : List α :=
  let c := cache ++ [item]
  if 100 < c.length then lastN 100 c else c

/-- The indicator dict written to Redis by `_calculate_and_update_indicators`. -/
structure Indicators where
  rsi_7 : ℚ
  rsi_14 : ℚ
  ema_20 : ℚ
  ema_50 : ℚ
  macd_line : ℚ
  macd_signal : ℚ
  macd_histogram : ℚ
  atr_14 : ℚ
  deriving Repr, DecidableEq

/-- `DataEngine._calculate_and_update_indicators` (data_engine.py lines
661–722) for one symbol: `none` models the early `return` taken when the
symbol is absent from `klines_cache` or has fewer than 7 cached klines
(no computation, no Redis write); otherwise the computed indicator dict. -/
def calculate_and_update_indicators (cache : List KlineMsg) : Option Indicators :=
  if cache.length < 7 then none
  else
    let prices := cache.map fun m => m.k.c
    let macd :=
      if 35 ≤ prices.length then calculate_macd prices 12 26 9
      else ⟨0, 0, 0⟩
    let atr := if 14 ≤ cache.length then calculate_atr cache 14 else 0
    some { rsi_7 := calculate_rsi prices 7
           rsi_14 := calculate_rsi prices 14
           ema_20 := calculate_ema prices 20
           ema_50 := calculate_ema prices 50
           macd_line := macd.macd_line
           macd_signal := macd.macd_signal
           macd_histogram := macd.macd_histogram
           atr_14 := atr }

/-- The per-symbol indicator entry in Redis after
`_calculate_and_update_indicators`: unchanged on the early return,
overwritten on a successful computation. -/
def update_indicator_store (store : Option Indicators)
    (cache : List KlineMsg) : Option Indicators :=
  match calculate_and_update_indicators cache with
  | none => store
  | some ind => some ind

/-- Per-symbol state touched by `_handle_kline_data_single`:
the `klines_cache` entry, the `last_prices` entry, and the symbol's
indicator dict in Redis. -/
structure SingleState where
  klines_cache : List KlineMsg
  last_price : Option ℚ
  indicators : Option Indicators
  deriving Repr, DecidableEq

/-- `DataEngine._handle_kline_data_single` (data_engine.py lines 458–520).
The message is appended to `klines_cache` before the `is_closed` test
(the source comments that it caches the kline regardless of completion);
only for a closed kline are the last price and indicators updated. -/
def handle_kline_data_single (st : SingleState) (msg : KlineMsg) : SingleState :=
  let cache := appendCapped st.klines_cache msg
  if msg.k.x then
    { klines_cache := cache
      last_price := some msg.k.c
      indicators := update_indicator_store st.indicators cache }
  else
    { st with klines_cache := cache }

/-- Per-symbol state touched by the multiplex handler `_handle_kline_data`
(data_engine.py lines 397–457): its `klines_cache` entry holds the inner
kline dicts, plus the `last_prices` entry. -/
structure MultiState where
  klines_cache : List Kline
  last_price : Option ℚ
  deriving Repr, DecidableEq

/-- `DataEngine._handle_kline_data` (data_engine.py lines 397–457).
Only a closed kline is appended to the buffer; an in-progress kline only
updates the current-price cache. -/
def handle_kline_data (st : MultiState) (kline : Kline) : MultiState :=
  if kline.x then
    { klines_cache := appendCapped st.klines_cache kline
      last_price := some kline.c }
  else
    { st with last_price := some kline.c }

/-! ### SmartTrigger (smart_trigger.py lines 20–214) -/

/-- Trigger configuration, read from `configs/config.py`:
`MIN_CALL_INTERVAL = 30`, `PRICE_VOLATILITY_THRESHOLD = 0.002`,
`FALLBACK_INTERVAL = 180`. -/
structure TriggerConfig where
  min_interval : ℚ
  price_threshold : ℚ
  fallback_interval : ℚ
  deriving Repr, DecidableEq

/-- The configured values of `configs/config.py` lines 46–48. -/
def defaultConfig : TriggerConfig :=
  { min_interval := 30, price_threshold := 2 / 1000, fallback_interval := 180 }

/-- The trigger state read by `should_trigger_decision`:
`last_ai_call_time` and, for the symbol under evaluation, the last
triggered price as looked up by `_get_last_trigger_price`. -/
structure TriggerState where
  last_ai_call_time : Option ℚ
  last_trigger_price : Option ℚ
  deriving Repr, DecidableEq

/-- The system-status dict read from Redis by `_check_system_status`. -/
structure SystemStatusInfo where
  websocket_status : String
  deriving Repr, DecidableEq

/-- The Redis-backed signals consulted by `_check_system_status`. -/
structure SystemSnapshot where
  redis_connected : Bool
  system_status : Option SystemStatusInfo
  ai_call_count : ℕ
  deriving Repr, DecidableEq

/-- The health lookup may raise instead of returning a snapshot;
`Except.error` models an exception escaping the Redis calls inside
`_check_system_status`'s `try` block. -/
abbrev HealthLookup := Except Unit SystemSnapshot

/-- The reason logged by `_log_trigger` for each decision branch of
`should_trigger_decision` (the Chinese log strings, in order: minimum
interval not reached, price volatility over threshold, fallback fired,
system anomaly, other conditions unmet). -/
inductive TriggerReason where
  | minIntervalNotElapsed
  | priceVolatility
  | fallbackTimeout
  | systemAnomaly
  | noCondition
  deriving Repr, DecidableEq

/-- `SmartTrigger._check_min_interval` (smart_trigger.py lines 87–93). -/
def check_min_interval (cfg : TriggerConfig) (st : TriggerState) (now : ℚ) : Bool :=
  match st.last_ai_call_time with
  | none => true
  | some t => decide (cfg.min_interval ≤ now - t)

/-- `SmartTrigger._check_price_volatility` (smart_trigger.py lines 95–118);
side effects (price-history bookkeeping, Redis price alert) do not affect
the returned decision and are omitted. -/
def check_price_volatility (cfg : TriggerConfig) (st : TriggerState)
    (current_price : ℚ) : Bool :=
  match st.last_trigger_price with
  | none => true
  | some last_price =>
    if last_price = 0 then false
    else decide (cfg.price_threshold ≤ |current_price - last_price| / last_price)

/-- `SmartTrigger._check_fallback_interval` (smart_trigger.py lines 120–126). -/
def check_fallback_interval (cfg : TriggerConfig) (st : TriggerState) (now : ℚ) : Bool :=
  match st.last_ai_call_time with
  | none => true
  | some t => decide (cfg.fallback_interval ≤ now - t)

/-- `SmartTrigger._check_system_status` (smart_trigger.py lines 128–156).
An exception in the Redis lookups is caught and yields `false`; otherwise:
a disconnected Redis or a websocket status other than `"connected"` yields
`true`, and an AI call count above 120 yields `false` — as does the final
fall-through. -/
def check_system_status (env : HealthLookup) : Bool :=
  match env with
  | .error _ => false
  | .ok info =>
    if info.redis_connected = false then true
    else
      let ws_bad :=
        match info.system_status with
        | some status => decide (status.websocket_status ≠ "connected")
        | none => false
      if ws_bad then true
      else if 120 < info.ai_call_count then false
      else false

/-- `SmartTrigger.should_trigger_decision` (smart_trigger.py lines 41–85),
paired with the reason string it logs: the global minimum-interval check
first, then — only if it passes — volatility, fallback and system status
in order. -/
def should_trigger_decision (cfg : TriggerConfig) (st : TriggerState)
    (env : HealthLookup) (now current_price : ℚ) : Bool × TriggerReason :=
  if check_min_interval cfg st now = false then
    (false, TriggerReason.minIntervalNotElapsed)
  else if check_price_volatility cfg st current_price then
    (true, TriggerReason.priceVolatility)
  else if check_fallback_interval cfg st now then
    (true, TriggerReason.fallbackTimeout)
  else if check_system_status env then
    (true, TriggerReason.systemAnomaly)
  else
    (false, TriggerReason.noCondition)

/-! ### Concrete inputs used by witnesses and counterexamples -/

/-- A two-element price history, below every indicator minimum. -/
def shortPrices : List ℚ := [1, 2]

/-- Fifteen alternating prices whose last 14 deltas balance exactly,
so RSI(14) is genuinely neutral. -/
def neutralPrices : List ℚ :=
  [100, 101, 100, 101, 100, 101, 100, 101, 100, 101, 100, 101, 100, 101, 100]

/-- Fifteen strictly increasing prices (no losses at all). -/
def risingPrices15 : List ℚ :=
  [1, 2, 3, 4, 5, 6, 7, 8, 9, 10, 11, 12, 13, 14, 15]

/-- Thirty-five strictly increasing prices (100..134), enough for MACD. -/
def pricesC9 : List ℚ :=
  [100, 101, 102, 103, 104, 105, 106, 107, 108, 109, 110, 111, 112, 113,
   114, 115, 116, 117, 118, 119, 120, 121, 122, 123, 124, 125, 126, 127,
   128, 129, 130, 131, 132, 133, 134]

/-- A trigger state with a known last call time and last triggered price. -/
def stWith (t lp : ℚ) : TriggerState :=
  { last_ai_call_time := some t, last_trigger_price := some lp }

/-- A healthy snapshot: Redis up, websocket connected, no calls counted. -/
def goodEnv : HealthLookup :=
  Except.ok { redis_connected := true
              system_status := some { websocket_status := "connected" }
              ai_call_count := 0 }

/-- A healthy snapshot except that 121 AI calls (> 120) fell in the
trailing hour. -/
def rateLimitedSnapshot : SystemSnapshot :=
  { redis_connected := true
    system_status := some { websocket_status := "connected" }
    ai_call_count := 121 }

/-- An in-progress (unclosed) kline message. -/
def unclosedMsg : KlineMsg :=
  { s := "BTCUSDT"
    k := { t := 0, T := 59999, i := "1m", o := 100, c := 101, h := 102,
           l := 99, v := 5, x := false } }

/-- A closed kline message. -/
def closedMsgA : KlineMsg :=
  { s := "BTCUSDT"
    k := { t := 0, T := 59999, i := "1m", o := 100, c := 101, h := 102,
           l := 99, v := 5, x := true } }

/-- A second closed kline message. -/
def closedMsgB : KlineMsg :=
  { s := "BTCUSDT"
    k := { t := 60000, T := 119999, i := "1m", o := 101, c := 102, h := 103,
           l := 100, v := 6, x := true } }

/-- Fresh per-symbol state of the single-stream handler. -/
def emptySingleState : SingleState :=
  { klines_cache := [], last_price := none, indicators := none }

/-- A six-message cache, one short of the 7-kline indicator minimum. -/
def sixMsgs : List KlineMsg := List.replicate 6 closedMsgA

/-! ## Theorems -/

/-- Claim C1 (counterexample): the indicator computations return a bare
number with no sufficiency flag, so a caller cannot distinguish
insufficient history from a genuine value without inspecting the value —
and not even then: an insufficient history (length 2 < 15) and a
sufficient, genuinely neutral history (length 15) both make
`calculate_rsi` return exactly `50`. -/
theorem rsi_sentinel_indistinguishable :
    shortPrices.length < 14 + 1 ∧ 14 + 1 ≤ neutralPrices.length ∧
    calculate_rsi shortPrices 14 = 50 ∧ calculate_rsi neutralPrices 14 = 50 := by
  refine ⟨by decide, by decide, ?_, ?_⟩ <;>
    norm_num [calculate_rsi, shortPrices, neutralPrices, rsi_avg_gain,
      rsi_avg_loss, rsi_gains, rsi_losses, diffs, mean, lastN]

/-- Claim C1 (amended): on a history shorter than its minimum required
length, each indicator computation is total (it never raises — each is a
Lean function) and returns its bare sentinel value: `50.0` for RSI and
`0.0` for EMA, MACD (all three outputs) and ATR.  No sufficiency flag
accompanies the value. -/
theorem insufficient_history_sentinels :
    (∀ (prices : List ℚ) (period : ℕ), prices.length < period + 1 →
      calculate_rsi prices period = 50) ∧
    (∀ (prices : List ℚ) (period : ℕ), prices.length < period →
      calculate_ema prices period = 0) ∧
    (∀ (prices : List ℚ) (fast slow signal : ℕ),
      prices.length < slow + signal →
      calculate_macd prices fast slow signal = ⟨0, 0, 0⟩) ∧
    (∀ (klines : List KlineMsg) (period : ℕ), klines.length < period + 1 →
      calculate_atr klines period = 0) := by
  refine ⟨fun prices period h => ?_, fun prices period h => ?_,
    fun prices fast slow signal h => ?_, fun klines period h => ?_⟩
  · simp [calculate_rsi, h]
  · simp [calculate_ema, h]
  · simp [calculate_macd, h]
  · simp [calculate_atr, h]

/-- Claim C1's amended theorem applied at concrete short inputs. -/
theorem insufficient_history_sentinels_witness :
    calculate_rsi shortPrices 14 = 50 ∧ calculate_ema shortPrices 20 = 0 ∧
    calculate_macd shortPrices 12 26 9 = ⟨0, 0, 0⟩ ∧
    calculate_atr [] 14 = 0 :=
  ⟨insufficient_history_sentinels.1 shortPrices 14 (by decide),
   insufficient_history_sentinels.2.1 shortPrices 20 (by decide),
   insufficient_history_sentinels.2.2.1 shortPrices 12 26 9 (by decide),
   insufficient_history_sentinels.2.2.2 [] 14 (by decide)⟩

/-- Claim C2 (code bug, evaluated at the failing input): with 121
invocations (> the 120 ceiling) in the trailing hour, a cooldown that has
elapsed (`now − last = 100 ≥ 30`) and the volatility condition met
(`|100.3 − 100| / 100 = 0.3% ≥ 0.2%`), `should_trigger_decision` still
triggers with the price-volatility reason: the count check, placed last
inside `_check_system_status`, merely returns `false` there and overrides
nothing. -/
theorem rate_limit_not_enforced_at_failing_input :
    120 < rateLimitedSnapshot.ai_call_count ∧
    check_system_status (Except.ok rateLimitedSnapshot) = false ∧
    should_trigger_decision defaultConfig (stWith 0 100)
        (Except.ok rateLimitedSnapshot) 100 (1003 / 10)
      = (true, TriggerReason.priceVolatility) := by
  refine ⟨by decide, by norm_num [check_system_status, rateLimitedSnapshot], ?_⟩
  norm_num [should_trigger_decision, check_min_interval, check_price_volatility,
    stWith, defaultConfig, abs_of_nonneg]

/-- Claim C3: whenever a last invocation time exists and
`now − last < min_interval`, the evaluation returns no-trigger with the
minimum-interval reason, for every symbol-level state, every price and
every health snapshot — the global cooldown is checked first and nothing
overrides it. -/
theorem min_interval_hard_gate (cfg : TriggerConfig) (st : TriggerState)
    (env : HealthLookup) (now current_price t : ℚ)
    (hlast : st.last_ai_call_time = some t)
    (h : now - t < cfg.min_interval) :
    should_trigger_decision cfg st env now current_price
      = (false, TriggerReason.minIntervalNotElapsed) := by
  have hb : check_min_interval cfg st now = false := by
    simp only [check_min_interval, hlast, decide_eq_false_iff_not, not_le]
    exact h
  simp [should_trigger_decision, hb]

/-- Claim C3's theorem applied at the spec's concrete scenario: last
invocation 10 seconds ago, minimum interval 30 seconds, volatility
condition met. -/
theorem min_interval_hard_gate_witness :
    should_trigger_decision defaultConfig (stWith 0 100) goodEnv 10 (1003 / 10)
      = (false, TriggerReason.minIntervalNotElapsed) :=
  min_interval_hard_gate defaultConfig (stWith 0 100) goodEnv 10 (1003 / 10) 0
    rfl (by norm_num [defaultConfig])

/-- Claim C4 (counterexample): the single-stream kline handler appends an
unclosed (in-progress) kline message to the per-symbol history buffer —
the very buffer `_calculate_and_update_indicators` reads. -/
theorem unclosed_bar_enters_single_buffer :
    unclosedMsg.k.x = false ∧
    (handle_kline_data_single emptySingleState unclosedMsg).klines_cache
      = [unclosedMsg] := by
  exact ⟨rfl, rfl⟩

/-- Claim C4 (amended): only the multiplex handler `_handle_kline_data`
keeps unclosed bars out of the buffer (they update nothing but the
current-price cache); the single-stream handler `_handle_kline_data_single`
appends every kline message, closed or not. -/
theorem multiplex_handler_rejects_unclosed (st : MultiState) (kline : Kline)
    (h : kline.x = false) :
    (handle_kline_data st kline).klines_cache = st.klines_cache ∧
    (handle_kline_data st kline).last_price = some kline.c := by
  simp [handle_kline_data, h]

/-- Claim C4's amended theorem applied to a concrete unclosed kline. -/
theorem multiplex_handler_rejects_unclosed_witness :
    (handle_kline_data ⟨[], none⟩ unclosedMsg.k).klines_cache = [] ∧
    (handle_kline_data ⟨[], none⟩ unclosedMsg.k).last_price = some 101 :=
  multiplex_handler_rejects_unclosed ⟨[], none⟩ unclosedMsg.k rfl

/-- Claim C5 (counterexample): when the health-signal lookup raises
(`Except.error`) and every other condition is false (cooldown just
elapsed, price unchanged, fallback interval not reached), the evaluation
returns no-trigger with the no-condition reason: the failure is NOT
treated as an anomaly signal — the check fails toward inaction. -/
theorem health_failure_yields_no_trigger :
    check_system_status (Except.error ()) = false ∧
    should_trigger_decision defaultConfig (stWith 0 100) (Except.error ())
        30 100
      = (false, TriggerReason.noCondition) := by
  refine ⟨rfl, ?_⟩
  norm_num [should_trigger_decision, check_min_interval, check_price_volatility,
    check_fallback_interval, check_system_status, stWith, defaultConfig]

/-- Claim C5 (amended): an exception in the health-signal lookup is caught
(the evaluation never crashes — `check_system_status` is total) and makes
the anomaly check return `false`, so with the other conditions false the
evaluation falls through to no-trigger: it fails toward inaction, not
toward triggering. -/
theorem health_lookup_failure_caught (cfg : TriggerConfig)
    (st : TriggerState) (now current_price : ℚ) (e : Unit)
    (hmin : check_min_interval cfg st now = true)
    (hvol : check_price_volatility cfg st current_price = false)
    (hfb : check_fallback_interval cfg st now = false) :
    check_system_status (Except.error e) = false ∧
    should_trigger_decision cfg st (Except.error e) now current_price
      = (false, TriggerReason.noCondition) := by
  refine ⟨rfl, ?_⟩
  simp [should_trigger_decision, hmin, hvol, hfb, check_system_status]

/-- Claim C5's amended theorem applied at a concrete erroring lookup. -/
theorem health_lookup_failure_caught_witness :
    check_system_status (Except.error ()) = false ∧
    should_trigger_decision defaultConfig (stWith 0 100) (Except.error ())
        40 (10005 / 100)
      = (false, TriggerReason.noCondition) :=
  health_lookup_failure_caught defaultConfig (stWith 0 100) 40 (10005 / 100)
    () (by norm_num [check_min_interval, stWith, defaultConfig])
    (by norm_num [check_price_volatility, stWith, defaultConfig, abs_of_nonneg])
    (by norm_num [check_fallback_interval, stWith, defaultConfig])

/-- Claim C6: once the cooldown has elapsed, a prior triggered price of
100 exists, the fallback interval has not been reached and the anomaly
check is false, the evaluation triggers with the price-volatility reason
exactly when `|current − 100| / 100 ≥ 0.002`; in particular price 100.3
(0.3%) triggers and price 100.1 (0.1%) returns no-trigger with the
no-condition reason. -/
theorem volatility_threshold_decides (t now : ℚ) (env : HealthLookup)
    (hcool : 30 ≤ now - t) (hfb : now - t < 180)
    (henv : check_system_status env = false) :
    should_trigger_decision defaultConfig (stWith t 100) env now (1003 / 10)
      = (true, TriggerReason.priceVolatility) ∧
    should_trigger_decision defaultConfig (stWith t 100) env now (1001 / 10)
      = (false, TriggerReason.noCondition) ∧
    ∀ current_price : ℚ,
      (should_trigger_decision defaultConfig (stWith t 100) env now
          current_price
        = (true, TriggerReason.priceVolatility)
       ↔ 2 / 1000 ≤ |current_price - 100| / 100) := by
  have hmin : check_min_interval defaultConfig (stWith t 100) now = true := by
    simp only [check_min_interval, stWith, defaultConfig, decide_eq_true_eq]
    exact hcool
  have hfb2 : check_fallback_interval defaultConfig (stWith t 100) now
      = false := by
    simp only [check_fallback_interval, stWith, defaultConfig,
      decide_eq_false_iff_not, not_le]
    exact hfb
  have hvol : ∀ p : ℚ, check_price_volatility defaultConfig (stWith t 100) p
      = decide (2 / 1000 ≤ |p - 100| / 100) := by
    intro p
    norm_num [check_price_volatility, stWith, defaultConfig]
  have hmain : ∀ p : ℚ,
      should_trigger_decision defaultConfig (stWith t 100) env now p
        = if 2 / 1000 ≤ |p - 100| / 100 then
            (true, TriggerReason.priceVolatility)
          else (false, TriggerReason.noCondition) := by
    intro p
    by_cases hp : 2 / 1000 ≤ |p - 100| / 100
    · simp [should_trigger_decision, hmin, hvol, hp]
    · simp [should_trigger_decision, hmin, hvol, hp, hfb2, henv]
  have habs3 : |(1003 : ℚ) / 10 - 100| = 3 / 10 := by
    rw [show (1003 : ℚ) / 10 - 100 = 3 / 10 by norm_num]
    exact abs_of_nonneg (by norm_num)
  have habs1 : |(1001 : ℚ) / 10 - 100| = 1 / 10 := by
    rw [show (1001 : ℚ) / 10 - 100 = 1 / 10 by norm_num]
    exact abs_of_nonneg (by norm_num)
  refine ⟨?_, ?_, fun p => ?_⟩
  · rw [hmain, if_pos (by rw [habs3]; norm_num)]
  · rw [hmain, if_neg (by rw [habs1]; norm_num)]
  · rw [hmain p]
    by_cases hp : 2 / 1000 ≤ |p - 100| / 100
    · simp [hp]
    · simp [hp]

/-- Claim C6's theorem applied at cooldown just elapsed with a healthy
environment, at both of the spec's concrete prices. -/
theorem volatility_threshold_decides_witness :
    should_trigger_decision defaultConfig (stWith 0 100) goodEnv 30 (1003 / 10)
      = (true, TriggerReason.priceVolatility) ∧
    should_trigger_decision defaultConfig (stWith 0 100) goodEnv 30 (1001 / 10)
      = (false, TriggerReason.noCondition) :=
  ⟨(volatility_threshold_decides 0 30 goodEnv (by norm_num) (by norm_num)
      rfl).1,
   (volatility_threshold_decides 0 30 goodEnv (by norm_num) (by norm_num)
      rfl).2.1⟩

/-- One capped append keeps the buffer within the 100-bar capacity. -/
theorem appendCapped_length_le {α : Type} (l : List α) (m : α)
    (h : l.length ≤ 100) : (appendCapped l m).length ≤ 100 := by
  simp only [appendCapped, lastN]
  split
  · split
    · simp_all
    · simp only [List.length_drop]
      omega
  · next hc =>
    simp only [List.length_append, List.length_cons, List.length_nil,
      not_lt] at hc ⊢
    omega

/-- One capped append only ever discards from the front: the new buffer is
a suffix of the old buffer with the new item at the tail. -/
theorem appendCapped_suffix {α : Type} (l : List α) (m : α) :
    (appendCapped l m).IsSuffix (l ++ [m]) := by
  simp only [appendCapped, lastN]
  split
  · split
    · exact List.suffix_rfl
    · exact List.drop_suffix _ _
  · exact List.suffix_rfl

/-- After a capped append the tail element is the item just inserted. -/
theorem appendCapped_getLast {α : Type} (l : List α) (m : α) :
    (appendCapped l m).getLast? = some m := by
  simp only [appendCapped, lastN]
  split
  · split
    · exact List.getLast?_concat _
    · rw [List.drop_append_of_le_length
        (by simp only [List.length_append, List.length_cons,
              List.length_nil]; omega)]
      exact List.getLast?_concat _
  · exact List.getLast?_concat _

/-- Claim C7: after any sequence of appends through the handlers' shared
buffer update, starting from any buffer within capacity, the buffer stays
at length at most 100, is a suffix of the full chronological sequence
(oldest evicted first, never reordered), and its tail is the most recently
inserted bar. -/
theorem buffer_capacity_fifo (init bars : List KlineMsg)
    (h : init.length ≤ 100) :
    (bars.foldl appendCapped init).length ≤ 100 ∧
    (bars.foldl appendCapped init).IsSuffix (init ++ bars) ∧
    (bars ≠ [] → (bars.foldl appendCapped init).getLast? = bars.getLast?) := by
  induction bars generalizing init with
  | nil =>
    exact ⟨h, by rw [List.append_nil]; exact List.suffix_rfl,
      fun hne => absurd rfl hne⟩
  | cons b rest ih =>
    have h' := appendCapped_length_le init b h
    obtain ⟨ih1, ih2, ih3⟩ := ih (appendCapped init b) h'
    rw [List.foldl_cons]
    refine ⟨ih1, ?_, ?_⟩
    · obtain ⟨u, hu⟩ := appendCapped_suffix init b
      have hstep : (appendCapped init b ++ rest).IsSuffix (init ++ b :: rest) := by
        refine ⟨u, ?_⟩
        rw [← List.append_assoc, hu, List.append_assoc, List.singleton_append]
      exact ih2.trans hstep
    · intro _
      cases rest with
      | nil => simpa using appendCapped_getLast init b
      | cons c cs =>
        rw [List.getLast?_cons_cons]
        exact ih3 (List.cons_ne_nil _ _)

/-- Claim C7's theorem applied to two concrete appends into an empty
buffer. -/
theorem buffer_capacity_fifo_witness :
    (([closedMsgA, closedMsgB].foldl appendCapped
        ([] : List KlineMsg)).length ≤ 100) ∧
    ([closedMsgA, closedMsgB].foldl appendCapped
        ([] : List KlineMsg)).IsSuffix [closedMsgA, closedMsgB] ∧
    ([closedMsgA, closedMsgB].foldl appendCapped
        ([] : List KlineMsg)).getLast? = some closedMsgB := by
  have hb := buffer_capacity_fifo [] [closedMsgA, closedMsgB] (by decide)
  exact ⟨hb.1, hb.2.1, hb.2.2 (List.cons_ne_nil _ _)⟩

/-- Membership in a Python tail slice is membership in the list. -/
theorem mem_lastN {α : Type} {x : α} (n : ℕ) (l : List α)
    (hx : x ∈ lastN n l) : x ∈ l := by
  unfold lastN at hx
  split at hx
  · exact hx
  · exact List.mem_of_mem_drop hx

/-- The mean of a list of nonnegative rationals is nonnegative. -/
theorem mean_nonneg (l : List ℚ) (h : ∀ x ∈ l, 0 ≤ x) : 0 ≤ mean l :=
  div_nonneg (List.sum_nonneg h) (Nat.cast_nonneg _)

/-- The average gain of `calculate_rsi` is nonnegative. -/
theorem rsi_avg_gain_nonneg (prices : List ℚ) (period : ℕ) :
    0 ≤ rsi_avg_gain prices period := by
  refine mean_nonneg _ fun x hx => ?_
  have hx' := mem_lastN _ _ hx
  simp only [rsi_gains, List.mem_map] at hx'
  obtain ⟨d, _, rfl⟩ := hx'
  rcases lt_or_le 0 d with hd | hd
  · rw [if_pos hd]; exact hd.le
  · rw [if_neg (not_lt.mpr hd)]

/-- The average loss of `calculate_rsi` is nonnegative. -/
theorem rsi_avg_loss_nonneg (prices : List ℚ) (period : ℕ) :
    0 ≤ rsi_avg_loss prices period := by
  refine mean_nonneg _ fun x hx => ?_
  have hx' := mem_lastN _ _ hx
  simp only [rsi_losses, List.mem_map] at hx'
  obtain ⟨d, _, rfl⟩ := hx'
  rcases lt_or_le d 0 with hd | hd
  · rw [if_pos hd]; linarith
  · rw [if_neg (not_lt.mpr hd)]

/-- Claim C8: on a history of length at least `period + 1`,
`calculate_rsi` always lands in the closed interval `[0, 100]`, and a
vanishing average loss yields exactly `100` (the explicit maximal-bullish
edge case, not an error). -/
theorem rsi_bounds (prices : List ℚ) (period : ℕ)
    (h : period + 1 ≤ prices.length) :
    (0 ≤ calculate_rsi prices period ∧ calculate_rsi prices period ≤ 100) ∧
    (rsi_avg_loss prices period = 0 → calculate_rsi prices period = 100) := by
  have hnlt : ¬ prices.length < period + 1 := not_lt.mpr h
  by_cases hz : rsi_avg_loss prices period = 0
  · have h100 : calculate_rsi prices period = 100 := by
      simp [calculate_rsi, hnlt, hz]
    rw [h100]
    exact ⟨⟨by norm_num, le_rfl⟩, fun _ => rfl⟩
  · have hg := rsi_avg_gain_nonneg prices period
    have hl := rsi_avg_loss_nonneg prices period
    have hrs : 0 ≤ rsi_avg_gain prices period / rsi_avg_loss prices period :=
      div_nonneg hg hl
    have h1 : (0 : ℚ)
        < 1 + rsi_avg_gain prices period / rsi_avg_loss prices period := by
      linarith
    have hq1 : 0 < 100
        / (1 + rsi_avg_gain prices period / rsi_avg_loss prices period) :=
      div_pos (by norm_num) h1
    have hq2 : 100
        / (1 + rsi_avg_gain prices period / rsi_avg_loss prices period)
        ≤ 100 :=
      div_le_self (by norm_num) (by linarith)
    have heq : calculate_rsi prices period = 100
        - 100 / (1 + rsi_avg_gain prices period
          / rsi_avg_loss prices period) := by
      simp [calculate_rsi, hnlt, hz]
    rw [heq]
    exact ⟨⟨by linarith, by linarith⟩, fun hc => absurd hc hz⟩

/-- Claim C8's theorem applied to fifteen strictly rising prices, whose
average loss is zero, with the inner edge-case hypothesis discharged. -/
theorem rsi_bounds_witness :
    (0 ≤ calculate_rsi risingPrices15 14 ∧
      calculate_rsi risingPrices15 14 ≤ 100) ∧
    calculate_rsi risingPrices15 14 = 100 :=
  ⟨(rsi_bounds risingPrices15 14 (by decide)).1,
   (rsi_bounds risingPrices15 14 (by decide)).2
     (by norm_num [rsi_avg_loss, risingPrices15, rsi_losses, diffs, mean,
       lastN])⟩

/-- The exponentially weighted mean series has one entry per price. -/
theorem emaSeqAux_length (a : ℚ) (l : List ℚ) :
    ∀ prev : ℚ, (emaSeqAux a prev l).length = l.length := by
  induction l with
  | nil => intro prev; rfl
  | cons x xs ih => intro prev; simp [emaSeqAux, ih]

/-- `emaSeq` preserves the length of the price list. -/
theorem emaSeq_length (a : ℚ) (l : List ℚ) :
    (emaSeq a l).length = l.length := by
  cases l with
  | nil => rfl
  | cons x xs => simp [emaSeq, emaSeqAux_length]

/-- The last entry of the running tail of the EMA series is the fold of
`emaStep` over the remaining prices. -/
theorem emaSeqAux_getLast (a : ℚ) : ∀ (xs : List ℚ) (x prev : ℚ),
    (emaSeqAux a prev (x :: xs)).getLast?
      = some ((x :: xs).foldl (emaStep a) prev) := by
  intro xs
  induction xs with
  | nil => intro x prev; simp [emaSeqAux]
  | cons y ys ih =>
    intro x prev
    simp only [emaSeqAux]
    rw [List.getLast?_cons_cons]
    have hih := ih y (emaStep a prev x)
    simp only [emaSeqAux] at hih
    rw [hih]
    simp [List.foldl_cons]

/-- The last entry of the EMA series is the fold of `emaStep` over the
tail, seeded by the first price — pandas `ewm(adjust=False)` at
`iloc[-1]`. -/
theorem emaSeq_getLast (a : ℚ) (x : ℚ) (xs : List ℚ) :
    (emaSeq a (x :: xs)).getLast? = some (xs.foldl (emaStep a) x) := by
  cases xs with
  | nil => simp [emaSeq, emaSeqAux]
  | cons y ys =>
    simp only [emaSeq, emaSeqAux]
    rw [List.getLast?_cons_cons]
    have hih := emaSeqAux_getLast a ys y x
    simp only [emaSeqAux] at hih
    rw [hih]

/-- The last entry of an elementwise difference of equal-length lists is
the difference of the last entries. -/
theorem getLast?_zipWith_sub : ∀ (l1 l2 : List ℚ) (v w : ℚ),
    l1.length = l2.length →
    l1.getLast? = some v → l2.getLast? = some w →
    (List.zipWith (· - ·) l1 l2).getLast? = some (v - w) := by
  intro l1
  induction l1 with
  | nil => intro l2 v w _ h1 _; simp at h1
  | cons x xs ih =>
    intro l2 v w hlen h1 h2
    cases l2 with
    | nil => simp at h2
    | cons y ys =>
      cases xs with
      | nil =>
        cases ys with
        | nil =>
          simp only [List.getLast?_singleton, Option.some.injEq] at h1 h2
          subst h1
          subst h2
          simp [List.zipWith]
        | cons z zs => simp at hlen
      | cons x2 xs2 =>
        cases ys with
        | nil => simp at hlen
        | cons y2 ys2 =>
          rw [List.getLast?_cons_cons] at h1 h2
          have hlen' : (x2 :: xs2).length = (y2 :: ys2).length := by
            simpa using hlen
          have hih := ih (y2 :: ys2) v w hlen' h1 h2
          rw [List.zipWith_cons_cons] at hih ⊢
          rw [List.zipWith_cons_cons, List.getLast?_cons_cons]
          exact hih

/-- In a strictly rising market the slow EMA fold stays strictly below the
fast EMA fold: the key invariant behind the MACD sign. -/
theorem slow_fold_lt_fast_fold : ∀ (xs : List ℚ) (p f s : ℚ),
    xs ≠ [] → List.Chain (· < ·) p xs → f ≤ p → s ≤ p → s ≤ f →
    xs.foldl (emaStep (2 / 27)) s < xs.foldl (emaStep (2 / 13)) f := by
  intro xs
  induction xs with
  | nil => intro p f s hne _ _ _ _; exact absurd rfl hne
  | cons x rest ih =>
    intro p f s _ hchain hf hs hsf
    rw [List.chain_cons] at hchain
    obtain ⟨hpx, hchain'⟩ := hchain
    rw [List.foldl_cons, List.foldl_cons]
    cases rest with
    | nil =>
      simp only [List.foldl_nil, emaStep]
      linarith
    | cons y ys =>
      refine ih x (emaStep (2 / 13) f x) (emaStep (2 / 27) s x)
        (List.cons_ne_nil _ _) hchain' ?_ ?_ ?_
      · simp only [emaStep]; linarith
      · simp only [emaStep]; linarith
      · simp only [emaStep]; linarith

/-- Claim C9: on any strictly increasing price series of length at least
35, the MACD line of `calculate_macd` — fast EMA(12) minus slow EMA(26),
both seeded by the first value with smoothing `2/(span+1)` — is strictly
positive. -/
theorem macd_line_pos_on_uptrend (prices : List ℚ)
    (hlen : 35 ≤ prices.length) (hmono : prices.Chain' (· < ·)) :
    0 < (calculate_macd prices 12 26 9).macd_line := by
  obtain ⟨x, xs, rfl⟩ : ∃ x xs, prices = x :: xs := by
    cases prices with
    | nil => simp at hlen
    | cons x xs => exact ⟨x, xs, rfl⟩
  have hxs : xs ≠ [] := by
    cases xs with
    | nil => simp at hlen
    | cons y ys => exact List.cons_ne_nil _ _
  have hchain : List.Chain (· < ·) x xs := hmono
  have hnlt : ¬ (x :: xs).length < 26 + 9 := by omega
  have e12 : (2 : ℚ) / (((12 : ℕ) : ℚ) + 1) = 2 / 13 := by norm_num
  have e26 : (2 : ℚ) / (((26 : ℕ) : ℚ) + 1) = 2 / 27 := by norm_num
  have hflen : (emaSeq (2 / 13) (x :: xs)).length
      = (emaSeq (2 / 27) (x :: xs)).length := by
    simp [emaSeq_length]
  have hlast := getLast?_zipWith_sub (emaSeq (2 / 13) (x :: xs))
    (emaSeq (2 / 27) (x :: xs)) (xs.foldl (emaStep (2 / 13)) x)
    (xs.foldl (emaStep (2 / 27)) x) hflen
    (emaSeq_getLast (2 / 13) x xs) (emaSeq_getLast (2 / 27) x xs)
  have hfold := slow_fold_lt_fast_fold xs x x x hxs hchain le_rfl le_rfl le_rfl
  simp only [calculate_macd, if_neg hnlt, e12, e26]
  rw [List.getLastD_eq_getLast?, hlast]
  simp only [Option.getD_some]
  linarith

/-- Claim C9's theorem applied to the spec's concrete rising series
100..134. -/
theorem macd_line_pos_on_uptrend_witness :
    0 < (calculate_macd pricesC9 12 26 9).macd_line :=
  macd_line_pos_on_uptrend pricesC9 (by decide)
    (by norm_num [pricesC9, List.chain'_cons, List.chain'_singleton])

/-- Claim C10: with fewer than 7 cached klines for a symbol, the indicator
recomputation returns immediately: nothing is computed, nothing is
written, and the symbol's indicator entry is left exactly as it was —
no sentinel values are published. -/
theorem short_cache_skips_indicators (cache : List KlineMsg)
    (h : cache.length < 7) :
    calculate_and_update_indicators cache = none ∧
    ∀ store : Option Indicators, update_indicator_store store cache = store := by
  have h1 : calculate_and_update_indicators cache = none := by
    simp [calculate_and_update_indicators, h]
  exact ⟨h1, fun store => by simp [update_indicator_store, h1]⟩

/-- Claim C10's theorem applied at a concrete six-kline cache. -/
theorem short_cache_skips_indicators_witness :
    calculate_and_update_indicators sixMsgs = none ∧
    update_indicator_store none sixMsgs = none :=
  ⟨(short_cache_skips_indicators sixMsgs (by decide)).1,
   (short_cache_skips_indicators sixMsgs (by decide)).2 none⟩

end CryptoTrader
